import Mathlib

/-!
# QADS-Backend: verification of the tenant-isolated persistence and session layer

Shallow embedding of the Rust sources (`src/storage.rs`, `src/main.rs`,
`src/models.rs`) of the QADS backend.  The SQLite store is modelled as a pure
state (`Db`, lists of rows in insertion order); each `Storage` method becomes a
Lean function with relational SQL semantics (filter / delete / update by
predicate, stable sort for `ORDER BY`).  `REAL` salary columns are modelled as
exact rationals; `chrono`'s RFC 3339 serializer/parser pair is modelled
executably on the zero-offset fragment that `DateTime<Utc>::to_rfc3339` emits
(which is the only fragment this program ever writes), with `Z` also accepted
on parse as chrono does.
-/

namespace QADS

/-! ## RFC 3339 timestamps (model of `chrono::DateTime<Utc>` + rfc3339 codec) -/

/-- Civil UTC datetime, the model of `chrono::DateTime<Utc>`. -/
structure Timestamp where
  year : Nat
  month : Nat
  day : Nat
  hour : Nat
  minute : Nat
  second : Nat
  nano : Nat
deriving DecidableEq, Repr

/-- Gregorian leap-year test, as chrono's calendar uses. -/
def isLeapYear (y : Nat) : Bool :=
  y % 4 == 0 && (y % 100 != 0 || y % 400 == 0)

/-- Number of days in a month of a given year. -/
def daysInMonth (y m : Nat) : Nat :=
  if m = 2 then (if isLeapYear y then 29 else 28)
  else if m = 4 ∨ m = 6 ∨ m = 9 ∨ m = 11 then 30
  else 31

/-- The calendar validity predicate chrono enforces when building a datetime
(restricted to 4-digit years and no leap-second nanos, the range this program
produces). -/
def Timestamp.Valid (t : Timestamp) : Prop :=
  1 ≤ t.month ∧ t.month ≤ 12 ∧ 1 ≤ t.day ∧ t.day ≤ daysInMonth t.year t.month ∧
  t.hour ≤ 23 ∧ t.minute ≤ 59 ∧ t.second ≤ 59 ∧ t.nano < 1000000000 ∧ t.year ≤ 9999

instance (t : Timestamp) : Decidable t.Valid := by
  unfold Timestamp.Valid; infer_instance

/-- Decimal digit characters. -/
def digitCharOf : Nat → Char
  | 0 => '0' | 1 => '1' | 2 => '2' | 3 => '3' | 4 => '4'
  | 5 => '5' | 6 => '6' | 7 => '7' | 8 => '8' | _ => '9'

/-- The character for the last decimal digit of `n`. -/
def digitChar (n : Nat) : Char := digitCharOf (n % 10)

/-- Zero-padded fixed-width decimal renderings (model of `%02`/`%04`-style
padding used by chrono's RFC 3339 formatter). -/
def pad2 (n : Nat) : List Char := [digitChar (n / 10), digitChar n]

def pad3 (n : Nat) : List Char := [digitChar (n / 100), digitChar (n / 10), digitChar n]

def pad4 (n : Nat) : List Char :=
  [digitChar (n / 1000), digitChar (n / 100), digitChar (n / 10), digitChar n]

def pad6 (n : Nat) : List Char :=
  [digitChar (n / 100000), digitChar (n / 10000), digitChar (n / 1000),
   digitChar (n / 100), digitChar (n / 10), digitChar n]

def pad9 (n : Nat) : List Char :=
  [digitChar (n / 100000000), digitChar (n / 10000000), digitChar (n / 1000000),
   digitChar (n / 100000), digitChar (n / 10000), digitChar (n / 1000),
   digitChar (n / 100), digitChar (n / 10), digitChar n]

/-- Fractional-second part of chrono's `to_rfc3339` (`SecondsFormat::AutoSi`):
empty for whole seconds, otherwise 3, 6 or 9 digits. -/
def fracChars (n : Nat) : List Char :=
  if n = 0 then []
  else if n % 1000000 = 0 then '.' :: pad3 (n / 1000000)
  else if n % 1000 = 0 then '.' :: pad6 (n / 1000)
  else '.' :: pad9 n

/-- The trailing `+00:00` chrono's serializer emits for `Utc`. -/
def zeroOff : List Char := ['+', '0', '0', ':', '0', '0']

/-- Model of `DateTime<Utc>::to_rfc3339` (character list). -/
def toRfc3339Chars (t : Timestamp) : List Char :=
  pad4 t.year ++ '-' :: pad2 t.month ++ '-' :: pad2 t.day ++ 'T' :: pad2 t.hour ++
  ':' :: pad2 t.minute ++ ':' :: pad2 t.second ++ fracChars t.nano ++ zeroOff

/-- Model of `DateTime<Utc>::to_rfc3339`. -/
def Timestamp.toRfc3339 (t : Timestamp) : String := String.mk (toRfc3339Chars t)

/-! Parser combinators for the RFC 3339 parser. -/

/-- Read one decimal digit. -/
def readDigit : List Char → Option (Nat × List Char)
  | [] => none
  | c :: rest => if c.isDigit then some (c.toNat - 48, rest) else none

/-- Read a two-digit decimal number. -/
def read2 (l : List Char) : Option (Nat × List Char) := do
  let (a, l1) ← readDigit l
  let (b, l2) ← readDigit l1
  pure (10 * a + b, l2)

/-- Read a four-digit decimal number. -/
def read4 (l : List Char) : Option (Nat × List Char) := do
  let (a, l1) ← read2 l
  let (b, l2) ← read2 l1
  pure (100 * a + b, l2)

/-- Expect a specific character. -/
def readChar (c : Char) : List Char → Option (List Char)
  | [] => none
  | c' :: rest => if c' = c then some rest else none

/-- Expect the date/time separator (`T` or `t`, as chrono accepts). -/
def readT : List Char → Option (List Char)
  | 'T' :: rest => some rest
  | 't' :: rest => some rest
  | _ => none

/-- Consume a maximal run of decimal digits, returning their values. -/
def readDigits : List Char → List Nat × List Char
  | [] => ([], [])
  | c :: rest =>
    if c.isDigit then
      ((c.toNat - 48) :: (readDigits rest).1, (readDigits rest).2)
    else ([], c :: rest)

/-- A zero UTC offset, the fragment `to_rfc3339` emits (`+00:00`) plus the
forms chrono also accepts for offset zero (`Z`, `z`, `-00:00`). -/
def offsetZero (l : List Char) : Bool :=
  l == ['Z'] || l == ['z'] || l == ['+', '0', '0', ':', '0', '0'] ||
    l == ['-', '0', '0', ':', '0', '0']

/-- Nanoseconds denoted by a fraction-digit run: chrono keeps the first nine
digits and ignores the rest. -/
def nanoOfDigits (ds : List Nat) : Nat :=
  (ds.take 9).foldl (fun a d => 10 * a + d) 0 * 10 ^ (9 - min ds.length 9)

/-- Parse the optional fractional part followed by a zero offset. -/
def parseTail : List Char → Option Nat
  | '.' :: r =>
    match readDigits r with
    | ([], _) => none
    | (ds, r2) => if offsetZero r2 then some (nanoOfDigits ds) else none
  | l => if offsetZero l then some 0 else none

/-- Model of `DateTime::parse_from_rfc3339` followed by `.with_timezone(&Utc)`,
on the zero-offset fragment (all strings this program writes carry offset
`+00:00` or `Z`; other offsets are outside the modelled fragment and map to
`none`). -/
def parseRfc3339L (l : List Char) : Option Timestamp := do
  let (y, l1) ← read4 l
  let l2 ← readChar '-' l1
  let (mo, l3) ← read2 l2
  let l4 ← readChar '-' l3
  let (d, l5) ← read2 l4
  let l6 ← readT l5
  let (h, l7) ← read2 l6
  let l8 ← readChar ':' l7
  let (mi, l9) ← read2 l8
  let l10 ← readChar ':' l9
  let (s, l11) ← read2 l10
  let n ← parseTail l11
  let t : Timestamp := ⟨y, mo, d, h, mi, s, n⟩
  if t.Valid then pure t else none

/-- Model of `DateTime::parse_from_rfc3339(...).with_timezone(&Utc)`. -/
def parseRfc3339 (s : String) : Option Timestamp := parseRfc3339L s.data

/-- The epoch default `1970-01-01T00:00:00Z` that reads fall back to on a
malformed stored timestamp. -/
def epochTimestamp : Timestamp := ⟨1970, 1, 1, 0, 0, 0, 0⟩

/-- Model of the
`parse_from_rfc3339(s).unwrap_or_else(|_| parse_from_rfc3339("1970-01-01T00:00:00Z").unwrap())`
pattern every read closure in `storage.rs` uses. -/
def parseCreatedAt (s : String) : Timestamp :=
  (parseRfc3339 s).getD epochTimestamp

/-! ### Round-trip lemmas for the codec -/

theorem digitCharOf_spec : ∀ k, k < 10 →
    (digitCharOf k).isDigit = true ∧ (digitCharOf k).toNat - 48 = k := by
  decide

theorem isDigit_digitChar (n : Nat) : (digitChar n).isDigit = true :=
  (digitCharOf_spec (n % 10) (Nat.mod_lt _ (by omega))).1

theorem toNat_digitChar (n : Nat) : (digitChar n).toNat - 48 = n % 10 :=
  (digitCharOf_spec (n % 10) (Nat.mod_lt _ (by omega))).2

theorem readDigit_digitChar (n : Nat) (r : List Char) :
    readDigit (digitChar n :: r) = some (n % 10, r) := by
  simp [readDigit, isDigit_digitChar, toNat_digitChar]

theorem read2_pad2 (n : Nat) (r : List Char) :
    read2 (pad2 n ++ r) = some (n % 100, r) := by
  simp [pad2, read2, readDigit_digitChar]
  omega

theorem read4_pad4 (n : Nat) (r : List Char) :
    read4 (pad4 n ++ r) = some (n % 10000, r) := by
  simp [pad4, read4, read2, readDigit_digitChar]
  omega

theorem readChar_cons (c : Char) (r : List Char) : readChar c (c :: r) = some r := by
  simp [readChar]

theorem readDigits_digitChar (n : Nat) (r : List Char) :
    readDigits (digitChar n :: r) =
      ((n % 10) :: (readDigits r).1, (readDigits r).2) := by
  simp [readDigits, isDigit_digitChar, toNat_digitChar]

theorem readDigits_plus (r : List Char) : readDigits ('+' :: r) = ([], '+' :: r) := by
  simp [readDigits]

theorem readT_T (r : List Char) : readT ('T' :: r) = some r := rfl

theorem parseTail_off : parseTail zeroOff = some 0 := by decide

theorem parseTail_frac3 (k : Nat) :
    parseTail ('.' :: pad3 k ++ zeroOff) = some (k % 1000 * 1000000) := by
  simp [parseTail, pad3, zeroOff, readDigits_digitChar, readDigits_plus, nanoOfDigits,
    offsetZero]
  omega

theorem parseTail_frac6 (k : Nat) :
    parseTail ('.' :: pad6 k ++ zeroOff) = some (k % 1000000 * 1000) := by
  simp [parseTail, pad6, zeroOff, readDigits_digitChar, readDigits_plus, nanoOfDigits,
    offsetZero]
  omega

theorem parseTail_frac9 (k : Nat) :
    parseTail ('.' :: pad9 k ++ zeroOff) = some (k % 1000000000) := by
  simp [parseTail, pad9, zeroOff, readDigits_digitChar, readDigits_plus, nanoOfDigits,
    offsetZero]
  omega

/-- Parsing the emitted date-time prefix followed by any fraction/offset tail
that `parseTail` accepts. -/
theorem parseRfc3339L_emit (y mo d hh mi s : Nat) (fr : List Char) (n : Nat)
    (hfr : parseTail (fr ++ zeroOff) = some n) :
    parseRfc3339L (pad4 y ++ '-' :: pad2 mo ++ '-' :: pad2 d ++ 'T' :: pad2 hh ++
        ':' :: pad2 mi ++ ':' :: pad2 s ++ fr ++ zeroOff) =
      if (Timestamp.mk (y % 10000) (mo % 100) (d % 100) (hh % 100) (mi % 100)
            (s % 100) n).Valid then
        some ⟨y % 10000, mo % 100, d % 100, hh % 100, mi % 100, s % 100, n⟩
      else none := by
  simp only [List.append_assoc, List.cons_append]
  simp only [parseRfc3339L, read4_pad4, read2_pad2, readChar_cons, readT_T, hfr,
    Option.bind_eq_bind, Option.some_bind]
  rfl

/-- Serialize/parse round trip: a calendar-valid timestamp survives the
RFC 3339 cycle exactly. -/
theorem parseRfc3339_toRfc3339 (t : Timestamp) (h : t.Valid) :
    parseRfc3339 t.toRfc3339 = some t := by
  obtain ⟨y, mo, d, hh, mi, s, na⟩ := t
  simp only [Timestamp.Valid] at h
  obtain ⟨h1, h2, h3, h4, h5, h6, h7, h8, h9⟩ := h
  have hd31 : daysInMonth y mo ≤ 31 := by
    unfold daysInMonth; split_ifs <;> omega
  have hy : y % 10000 = y := by omega
  have hmo : mo % 100 = mo := by omega
  have hd : d % 100 = d := by omega
  have hhh : hh % 100 = hh := by omega
  have hmi : mi % 100 = mi := by omega
  have hs : s % 100 = s := by omega
  simp only [Timestamp.toRfc3339, parseRfc3339, toRfc3339Chars]
  by_cases hn0 : na = 0
  · subst hn0
    have hv : (Timestamp.mk y mo d hh mi s 0).Valid := by
      simp only [Timestamp.Valid]; omega
    have hfc : fracChars 0 = [] := by simp [fracChars]
    have hemit := parseRfc3339L_emit y mo d hh mi s [] 0 (by simpa using parseTail_off)
    rw [hfc, hemit]
    simp [hy, hmo, hd, hhh, hmi, hs, hv]
  · have hv : (Timestamp.mk y mo d hh mi s na).Valid := by
      simp only [Timestamp.Valid]; omega
    by_cases hn3 : na % 1000000 = 0
    · have hfc : fracChars na = '.' :: pad3 (na / 1000000) := by
        simp [fracChars, hn0, hn3]
      have hfr : parseTail ('.' :: pad3 (na / 1000000) ++ zeroOff) = some na := by
        rw [parseTail_frac3]
        exact congrArg some (by omega)
      have hemit := parseRfc3339L_emit y mo d hh mi s ('.' :: pad3 (na / 1000000)) na hfr
      rw [hfc, hemit]
      simp [hy, hmo, hd, hhh, hmi, hs, hv]
    · by_cases hn6 : na % 1000 = 0
      · have hfc : fracChars na = '.' :: pad6 (na / 1000) := by
          simp [fracChars, hn0, hn3, hn6]
        have hfr : parseTail ('.' :: pad6 (na / 1000) ++ zeroOff) = some na := by
          rw [parseTail_frac6]
          exact congrArg some (by omega)
        have hemit := parseRfc3339L_emit y mo d hh mi s ('.' :: pad6 (na / 1000)) na hfr
        rw [hfc, hemit]
        simp [hy, hmo, hd, hhh, hmi, hs, hv]
      · have hfc : fracChars na = '.' :: pad9 na := by
          simp [fracChars, hn0, hn3, hn6]
        have hfr : parseTail ('.' :: pad9 na ++ zeroOff) = some na := by
          rw [parseTail_frac9]
          exact congrArg some (by omega)
        have hemit := parseRfc3339L_emit y mo d hh mi s ('.' :: pad9 na) na hfr
        rw [hfc, hemit]
        simp [hy, hmo, hd, hhh, hmi, hs, hv]


/-! ## Data model (`src/models.rs` structs and `src/storage.rs` table rows)

Model records carry a parsed `Timestamp` like the Rust structs
(`created_at: DateTime<Utc>`); table rows carry the serialized text the
SQLite columns store.  `REAL` salary columns are modelled as exact rationals. -/

/-- Model of `models::Client`. -/
structure Client where
  id : String
  business_name : String
  business_website : String
  business_sector : String
  revenue : String
  goals : String
  email : String
  job_title : String
  username : String
  password_hash : String
  created_at : Timestamp
deriving DecidableEq, Repr

/-- Model of `models::Employee`. -/
structure Employee where
  id : String
  client_id : String
  name : String
  title : String
  salary : ℚ
  status : String
  paid : Bool
  created_at : Timestamp
deriving DecidableEq, Repr

/-- Model of `models::Task`. -/
structure Task where
  id : String
  client_id : String
  title : String
  priority : String
  done : Bool
  created_at : Timestamp
deriving DecidableEq, Repr

/-- Model of `models::Event`. -/
structure Event where
  id : String
  client_id : String
  title : String
  description : String
  start_date : String
  start_time : String
  end_date : String
  end_time : String
  color : String
  created_at : Timestamp
deriving DecidableEq, Repr

/-- Model of `models::DashboardStats` (`i64` counts as `Int`, `f64` payroll as
an exact rational). -/
structure DashboardStats where
  total_employees : Int
  monthly_payroll : ℚ
  active_tasks : Int
  total_events : Int
deriving DecidableEq, Repr

/-- A row of the `clients` table (`created_at` as stored text). -/
structure ClientRow where
  id : String
  business_name : String
  business_website : String
  business_sector : String
  revenue : String
  goals : String
  email : String
  job_title : String
  username : String
  password_hash : String
  created_at : String
deriving DecidableEq, Repr

/-- A row of the `employees` table (`paid INTEGER`, `created_at TEXT`). -/
structure EmployeeRow where
  id : String
  client_id : String
  name : String
  title : String
  salary : ℚ
  status : String
  paid : Int
  created_at : String
deriving DecidableEq, Repr

/-- A row of the `tasks` table (`done INTEGER`, `created_at TEXT`). -/
structure TaskRow where
  id : String
  client_id : String
  title : String
  priority : String
  done : Int
  created_at : String
deriving DecidableEq, Repr

/-- A row of the `events` table. -/
structure EventRow where
  id : String
  client_id : String
  title : String
  description : String
  start_date : String
  start_time : String
  end_date : String
  end_time : String
  color : String
  created_at : String
deriving DecidableEq, Repr

/-- The SQLite database state: the four tables in insertion order. -/
structure Db where
  clients : List ClientRow
  employees : List EmployeeRow
  tasks : List TaskRow
  events : List EventRow
deriving DecidableEq, Repr

/-- The empty store, as `init_tables` creates it. -/
def Db.empty : Db := ⟨[], [], [], []⟩

/-- Primary-key / unique-column discipline the schema enforces
(`id TEXT PRIMARY KEY` on every table, `username TEXT UNIQUE` on `clients`). -/
def Db.WellFormed (db : Db) : Prop :=
  (db.clients.map ClientRow.id).Nodup ∧ (db.clients.map ClientRow.username).Nodup ∧
  (db.employees.map EmployeeRow.id).Nodup ∧ (db.tasks.map TaskRow.id).Nodup ∧
  (db.events.map EventRow.id).Nodup

/-- Storage failures surfaced by `rusqlite` that the model distinguishes:
a uniqueness-constraint violation on insert. -/
inductive StorageError
  | constraintViolation
deriving DecidableEq, Repr

/-! Conversions between model records and table rows, exactly as the
`INSERT` parameter lists and `query_map` closures in `storage.rs` build them. -/

/-- The `INSERT INTO clients ...` parameter list of `create_client`. -/
def clientToRow (c : Client) : ClientRow :=
  ⟨c.id, c.business_name, c.business_website, c.business_sector, c.revenue, c.goals,
   c.email, c.job_title, c.username, c.password_hash, c.created_at.toRfc3339⟩

/-- The row closure of `get_client_by_username` (RFC 3339 parse with epoch
fallback). -/
def rowToClient (r : ClientRow) : Client :=
  ⟨r.id, r.business_name, r.business_website, r.business_sector, r.revenue, r.goals,
   r.email, r.job_title, r.username, r.password_hash, parseCreatedAt r.created_at⟩

/-- The `INSERT INTO employees ...` parameter list of `create_employee`
(`if employee.paid { 1 } else { 0 }`). -/
def employeeToRow (e : Employee) : EmployeeRow :=
  ⟨e.id, e.client_id, e.name, e.title, e.salary, e.status,
   if e.paid then 1 else 0, e.created_at.toRfc3339⟩

/-- The row closure of `get_employees` (`paid: paid_int == 1`, epoch fallback
on the timestamp). -/
def rowToEmployee (r : EmployeeRow) : Employee :=
  ⟨r.id, r.client_id, r.name, r.title, r.salary, r.status, r.paid == 1,
   parseCreatedAt r.created_at⟩

/-- The `INSERT INTO tasks ...` parameter list of `create_task`. -/
def taskToRow (t : Task) : TaskRow :=
  ⟨t.id, t.client_id, t.title, t.priority, if t.done then 1 else 0,
   t.created_at.toRfc3339⟩

/-- The row closure of `get_tasks` (`done: done_int == 1`, epoch fallback). -/
def rowToTask (r : TaskRow) : Task :=
  ⟨r.id, r.client_id, r.title, r.priority, r.done == 1, parseCreatedAt r.created_at⟩

/-- The `INSERT INTO events ...` parameter list of `create_event`. -/
def eventToRow (e : Event) : EventRow :=
  ⟨e.id, e.client_id, e.title, e.description, e.start_date, e.start_time,
   e.end_date, e.end_time, e.color, e.created_at.toRfc3339⟩

/-- The row closure of `get_events` (epoch fallback on the timestamp). -/
def rowToEvent (r : EventRow) : Event :=
  ⟨r.id, r.client_id, r.title, r.description, r.start_date, r.start_time,
   r.end_date, r.end_time, r.color, parseCreatedAt r.created_at⟩

/-! ## Persistence Engine (`impl Storage` in `src/storage.rs`)

Each method locks the single connection, runs one SQL statement (or, for the
dashboard, four), and returns.  Relational semantics of the statements:

* `INSERT` fails with a constraint violation when a `PRIMARY KEY` / `UNIQUE`
  column collides, else appends the row;
* `SELECT ... WHERE client_id = ?1 ORDER BY k` filters by tenant and sorts by
  the key column (SQLite `TEXT` comparison is byte order, i.e. `String` order);
* `DELETE`/`UPDATE ... WHERE id = ?1 AND client_id = ?2` touches exactly the
  rows matching both columns and reports how many. -/

/-- SQLite's default BINARY collation on `TEXT`: lexicographic byte order,
which on UTF-8 data is lexicographic code-point order. -/
def charListLe : List Char → List Char → Bool
  | [], _ => true
  | _ :: _, [] => false
  | a :: as, b :: bs => if a = b then charListLe as bs else decide (a < b)

/-- BINARY-collation `≤` on stored `TEXT` values. -/
def strLe (a b : String) : Bool := charListLe a.data b.data

theorem charListLe_total : ∀ a b, charListLe a b = true ∨ charListLe b a = true := by
  intro a
  induction a with
  | nil => intro b; left; rfl
  | cons x as ih =>
    intro b
    cases b with
    | nil => right; rfl
    | cons y bs =>
      by_cases hxy : x = y
      · subst hxy
        rcases ih bs with h | h
        · left; simpa [charListLe] using h
        · right; simpa [charListLe] using h
      · rcases lt_or_gt_of_ne hxy with h | h
        · left; simp [charListLe, hxy, h]
        · right; simp [charListLe, Ne.symm hxy, h]

theorem charListLe_trans : ∀ a b c, charListLe a b = true → charListLe b c = true →
    charListLe a c = true := by
  intro a
  induction a with
  | nil => intro b c _ _; rfl
  | cons x as ih =>
    intro b c hab hbc
    cases b with
    | nil => simp [charListLe] at hab
    | cons y bs =>
      cases c with
      | nil => simp [charListLe] at hbc
      | cons z cs =>
        by_cases hxy : x = y
        · subst hxy
          simp only [charListLe, if_pos rfl] at hab
          by_cases hyz : x = z
          · subst hyz
            simp only [charListLe, if_pos rfl] at hbc ⊢
            exact ih bs cs hab hbc
          · simp only [charListLe, if_neg hyz] at hbc ⊢
            exact hbc
        · simp only [charListLe, if_neg hxy] at hab
          have hlt : x < y := of_decide_eq_true hab
          by_cases hyz : y = z
          · subst hyz
            simp only [charListLe, if_neg hxy]
            exact decide_eq_true hlt
          · simp only [charListLe, if_neg hyz] at hbc
            have hlt2 : y < z := of_decide_eq_true hbc
            have hxz : x < z := lt_trans hlt hlt2
            simp only [charListLe, if_neg (ne_of_lt hxz)]
            exact decide_eq_true hxz

/-- `ORDER BY name ASC` on `employees`. -/
def empOrder (a b : EmployeeRow) : Prop := strLe a.name b.name = true

instance : DecidableRel empOrder := fun a b =>
  inferInstanceAs (Decidable (strLe a.name b.name = true))

instance : IsTotal EmployeeRow empOrder := ⟨fun x y => charListLe_total x.name.data y.name.data⟩

instance : IsTrans EmployeeRow empOrder := ⟨fun _ _ _ h1 h2 => charListLe_trans _ _ _ h1 h2⟩

/-- `ORDER BY created_at DESC` on `tasks`. -/
def taskOrder (a b : TaskRow) : Prop := strLe b.created_at a.created_at = true

instance : DecidableRel taskOrder := fun a b =>
  inferInstanceAs (Decidable (strLe b.created_at a.created_at = true))

instance : IsTotal TaskRow taskOrder := ⟨fun x y => charListLe_total y.created_at.data x.created_at.data⟩

instance : IsTrans TaskRow taskOrder := ⟨fun _ _ _ h1 h2 => charListLe_trans _ _ _ h2 h1⟩

/-- `ORDER BY start_date ASC` on `events`. -/
def eventOrder (a b : EventRow) : Prop := strLe a.start_date b.start_date = true

instance : DecidableRel eventOrder := fun a b =>
  inferInstanceAs (Decidable (strLe a.start_date b.start_date = true))

instance : IsTotal EventRow eventOrder := ⟨fun x y => charListLe_total x.start_date.data y.start_date.data⟩

instance : IsTrans EventRow eventOrder := ⟨fun _ _ _ h1 h2 => charListLe_trans _ _ _ h1 h2⟩

/-- `Storage::create_client`: `INSERT INTO clients ...`; the `id` primary key
and the `username UNIQUE` constraint can fire. -/
def create_client (db : Db) (c : Client) : Except StorageError Db :=
  if db.clients.any (fun r => r.id == c.id || r.username == c.username) then
    .error .constraintViolation
  else
    .ok { db with clients := db.clients ++ [clientToRow c] }

/-- `Storage::get_client_by_username`: first row with the given username. -/
def get_client_by_username (db : Db) (username : String) : Option Client :=
  (db.clients.find? (fun r => r.username == username)).map rowToClient

/-- `Storage::create_employee`. -/
def create_employee (db : Db) (e : Employee) : Except StorageError Db :=
  if db.employees.any (fun r => r.id == e.id) then .error .constraintViolation
  else .ok { db with employees := db.employees ++ [employeeToRow e] }

/-- `Storage::get_employees`: tenant-filtered, `ORDER BY name ASC`. -/
def get_employees (db : Db) (client_id : String) : List Employee :=
  (((db.employees.filter (fun r => r.client_id == client_id)).insertionSort
      empOrder).map rowToEmployee)

/-- Rows matched by `WHERE id = ?1 AND client_id = ?2` on `employees`. -/
def empMatch (id client_id : String) (r : EmployeeRow) : Bool :=
  r.id == id && r.client_id == client_id

/-- `Storage::delete_employee`: affected-row count and the new state. -/
def delete_employee (db : Db) (id client_id : String) : Nat × Db :=
  ((db.employees.filter (empMatch id client_id)).length,
   { db with employees := db.employees.filter (fun r => !(empMatch id client_id r)) })

/-- `Storage::update_employee_paid_status`. -/
def update_employee_paid_status (db : Db) (id client_id : String) (paid : Bool) :
    Nat × Db :=
  ((db.employees.filter (empMatch id client_id)).length,
   { db with employees := db.employees.map (fun r =>
      if empMatch id client_id r then { r with paid := if paid then 1 else 0 } else r) })

/-- `Storage::create_task`. -/
def create_task (db : Db) (t : Task) : Except StorageError Db :=
  if db.tasks.any (fun r => r.id == t.id) then .error .constraintViolation
  else .ok { db with tasks := db.tasks ++ [taskToRow t] }

/-- `Storage::get_tasks`: tenant-filtered, `ORDER BY created_at DESC`. -/
def get_tasks (db : Db) (client_id : String) : List Task :=
  (((db.tasks.filter (fun r => r.client_id == client_id)).insertionSort
      taskOrder).map rowToTask)

/-- Rows matched by `WHERE id = ?1 AND client_id = ?2` on `tasks`. -/
def taskMatch (id client_id : String) (r : TaskRow) : Bool :=
  r.id == id && r.client_id == client_id

/-- `Storage::update_task_status`. -/
def update_task_status (db : Db) (id client_id : String) (done : Bool) : Nat × Db :=
  ((db.tasks.filter (taskMatch id client_id)).length,
   { db with tasks := db.tasks.map (fun r =>
      if taskMatch id client_id r then { r with done := if done then 1 else 0 } else r) })

/-- `Storage::delete_task`. -/
def delete_task (db : Db) (id client_id : String) : Nat × Db :=
  ((db.tasks.filter (taskMatch id client_id)).length,
   { db with tasks := db.tasks.filter (fun r => !(taskMatch id client_id r)) })

/-- `Storage::create_event`. -/
def create_event (db : Db) (e : Event) : Except StorageError Db :=
  if db.events.any (fun r => r.id == e.id) then .error .constraintViolation
  else .ok { db with events := db.events ++ [eventToRow e] }

/-- `Storage::get_events`: tenant-filtered, `ORDER BY start_date ASC`. -/
def get_events (db : Db) (client_id : String) : List Event :=
  (((db.events.filter (fun r => r.client_id == client_id)).insertionSort
      eventOrder).map rowToEvent)

/-- Rows matched by `WHERE id = ?1 AND client_id = ?2` on `events`. -/
def eventMatch (id client_id : String) (r : EventRow) : Bool :=
  r.id == id && r.client_id == client_id

/-- `Storage::delete_event`. -/
def delete_event (db : Db) (id client_id : String) : Nat × Db :=
  ((db.events.filter (eventMatch id client_id)).length,
   { db with events := db.events.filter (fun r => !(eventMatch id client_id r)) })

/-! The four aggregate sub-queries of `Storage::get_dashboard_stats`. -/

/-- `SELECT COUNT(*) FROM employees WHERE client_id = ?`. -/
def countEmployees (db : Db) (client_id : String) : Int :=
  (db.employees.filter (fun r => r.client_id == client_id)).length

/-- `SELECT COALESCE(SUM(salary), 0.0) FROM employees WHERE client_id = ?`. -/
def sumSalaries (db : Db) (client_id : String) : ℚ :=
  ((db.employees.filter (fun r => r.client_id == client_id)).map
    EmployeeRow.salary).sum

/-- `SELECT COUNT(*) FROM tasks WHERE client_id = ? AND done = 0`. -/
def countActiveTasks (db : Db) (client_id : String) : Int :=
  (db.tasks.filter (fun r => r.client_id == client_id && r.done == 0)).length

/-- `SELECT COUNT(*) FROM events WHERE client_id = ?`. -/
def countEvents (db : Db) (client_id : String) : Int :=
  (db.events.filter (fun r => r.client_id == client_id)).length

/-- `Storage::get_dashboard_stats`: the four sub-queries assembled into
`DashboardStats`.  (The Rust method holds the connection lock across all
four; the sequential composition is modelled in the concurrency section.) -/
def get_dashboard_stats (db : Db) (client_id : String) : DashboardStats :=
  ⟨countEmployees db client_id, sumSalaries db client_id,
   countActiveTasks db client_id, countEvents db client_id⟩

/-! ## Session Registry and request-boundary helpers (`src/main.rs`)

`AppState.sessions` is a `Mutex<HashMap<String, String>>` from session token
to client id; modelled as an association list whose lookup takes the first
binding (`HashMap` lookup semantics, inserts prepend). -/

/-- `sessions.insert(session_id, client_id)`. -/
def sessionInsert (token client_id : String) (sessions : List (String × String)) :
    List (String × String) :=
  (token, client_id) :: sessions

/-- `sessions.get(token).cloned()`. -/
def sessionResolve (token : String) (sessions : List (String × String)) :
    Option String :=
  (sessions.find? (fun p => p.1 == token)).map Prod.snd

/-- Fuel-driven loop of `str::trim_start_matches("Bearer ")`: strip the
7-character prefix while it is present.  Each strip consumes at least one
character, so `l.length` fuel always suffices. -/
def trimBearerAux : Nat → List Char → List Char
  | 0, l => l
  | fuel + 1, l =>
    if "Bearer ".data.isPrefixOf l then trimBearerAux fuel (l.drop 7) else l

/-- `str::trim_start_matches("Bearer ")`: repeatedly strips the prefix. -/
def trimBearer (l : List Char) : List Char := trimBearerAux l.length l

/-- `get_client_id_from_header`: extract the bearer token from the
`Authorization` header value and resolve it in the session registry. -/
def get_client_id_from_header (auth : Option String)
    (sessions : List (String × String)) : Option String :=
  match auth with
  | none => none
  | some a =>
    if "Bearer ".data.isPrefixOf a.data then
      sessionResolve (String.mk (trimBearer a.data)) sessions
    else
      none

/-- Outcome of `login_client` (HTTP translation elided). -/
inductive LoginOutcome
  | ok (session_id client_id client_name : String)
  | invalidCredentials
  | userNotFound
deriving DecidableEq, Repr

/-- `login_client` (`src/main.rs`): look the user up, compare the stored
credential, and on success bind a fresh token (the uuid, passed explicitly
here) in the session registry. -/
def login_client (db : Db) (sessions : List (String × String))
    (username password token : String) : LoginOutcome × List (String × String) :=
  match get_client_by_username db username with
  | some c =>
    if c.password_hash == password then
      (.ok token c.id c.business_name, sessionInsert token c.id sessions)
    else
      (.invalidCredentials, sessions)
  | none => (.userNotFound, sessions)

/-- `CreateEventRequest` (`src/models.rs`): description and times optional. -/
structure CreateEventRequest where
  title : String
  description : Option String
  start_date : String
  start_time : Option String
  end_date : String
  end_time : Option String
  color : String
deriving DecidableEq, Repr

/-- The `Event::new(client_id, body.title.clone(), body.description.clone()
.unwrap_or_default(), ...)` construction in the `create_event` handler; the
generated uuid and current time are passed explicitly. -/
def eventOfRequest (id : String) (now : Timestamp) (client_id : String)
    (r : CreateEventRequest) : Event :=
  ⟨id, client_id, r.title, r.description.getD "", r.start_date,
   r.start_time.getD "", r.end_date, r.end_time.getD "", r.color, now⟩

/-! ## Concurrency model for `get_dashboard_stats`

`get_dashboard_stats` takes the single connection mutex once
(`let conn = self.conn.lock().unwrap();`) and holds the guard across all four
`query_row` calls; every other `Storage` method likewise runs entirely inside
the same mutex.  We model an interleaved execution at micro-step granularity:
the dashboard thread's acquire, its four sub-queries and its release are
separate steps, and the environment (any number of concurrently running
`Storage` writers) may attempt lock acquire / db write / release steps at any
point, subject only to the mutex discipline the code obeys. -/

/-- Who holds the connection mutex. -/
inductive LockOwner
  | free
  | dash
  | env
deriving DecidableEq, Repr

/-- Local state of the dashboard thread: program counter (0 acquire,
1–4 the four sub-queries, 5 release, 6 done) and the four recorded
sub-results. -/
structure DashThread where
  pc : Nat
  q1 : Option Int
  q2 : Option ℚ
  q3 : Option Int
  q4 : Option Int
deriving DecidableEq, Repr

/-- Global interleaving state. -/
structure CState where
  db : Db
  lock : LockOwner
  dash : DashThread
deriving DecidableEq, Repr

/-- One scheduler choice: a dashboard micro-step, or an environment
(concurrent `Storage` caller) lock/write/unlock micro-step. -/
inductive COp where
  | dashStep
  | envAcquire
  | envWrite (g : Db → Db)
  | envRelease

/-- The dashboard thread's next micro-step, mirroring the body of
`get_dashboard_stats`: acquire the mutex, run the four sub-queries in order
while holding it, release. -/
def dashMicroStep (client_id : String) (s : CState) : Option CState :=
  match s.dash.pc with
  | 0 => if s.lock = .free then
           some { s with lock := .dash, dash := { s.dash with pc := 1 } }
         else none
  | 1 => if s.lock = .dash then
           some { s with dash :=
             { s.dash with pc := 2, q1 := some (countEmployees s.db client_id) } }
         else none
  | 2 => if s.lock = .dash then
           some { s with dash :=
             { s.dash with pc := 3, q2 := some (sumSalaries s.db client_id) } }
         else none
  | 3 => if s.lock = .dash then
           some { s with dash :=
             { s.dash with pc := 4, q3 := some (countActiveTasks s.db client_id) } }
         else none
  | 4 => if s.lock = .dash then
           some { s with dash :=
             { s.dash with pc := 5, q4 := some (countEvents s.db client_id) } }
         else none
  | 5 => if s.lock = .dash then
           some { s with lock := .free, dash := { s.dash with pc := 6 } }
         else none
  | _ => none

/-- One interleaving step; `none` means the chosen thread is not enabled
(e.g. it is blocked on the mutex). Environment writes require holding the
mutex — exactly the discipline every `Storage` method follows. -/
def cstep (client_id : String) (s : CState) (op : COp) : Option CState :=
  match op with
  | .dashStep => dashMicroStep client_id s
  | .envAcquire => if s.lock = .free then some { s with lock := .env } else none
  | .envWrite g => if s.lock = .env then some { s with db := g s.db } else none
  | .envRelease => if s.lock = .env then some { s with lock := .free } else none

/-- Run a schedule of interleaving choices. -/
def crun (client_id : String) (s : CState) : List COp → Option CState
  | [] => some s
  | op :: ops =>
    match cstep client_id s op with
    | none => none
    | some s' => crun client_id s' ops

/-- Initial state: some store contents, mutex free, dashboard not started. -/
def cinit (db : Db) : CState := ⟨db, .free, ⟨0, none, none, none, none⟩⟩

/-- The assembled `DashboardStats` of a finished dashboard call. -/
def dashResult (s : CState) : Option DashboardStats :=
  match s.dash.q1, s.dash.q2, s.dash.q3, s.dash.q4 with
  | some a, some b, some c, some d => some ⟨a, b, c, d⟩
  | _, _, _, _ => none

/-- The torn-read scenario §4.3 of the spec warns about: some execution in
which the finished dashboard's four sub-results are consistent with no single
store state. -/
def TornReadPossible : Prop :=
  ∃ (db : Db) (client_id : String) (sched : List COp) (s' : CState),
    crun client_id (cinit db) sched = some s' ∧ s'.dash.pc = 6 ∧
    ∀ d0 : Db, dashResult s' ≠ some (get_dashboard_stats d0 client_id)

/-- Invariant: while the dashboard holds the mutex its recorded sub-results
match the *current* store state (which cannot change under it), and once it
has finished, all four sub-results stem from one store state. -/
def DashInv (client_id : String) (s : CState) : Prop :=
  (1 ≤ s.dash.pc ∧ s.dash.pc ≤ 5 → s.lock = .dash ∧
    (2 ≤ s.dash.pc → s.dash.q1 = some (countEmployees s.db client_id)) ∧
    (3 ≤ s.dash.pc → s.dash.q2 = some (sumSalaries s.db client_id)) ∧
    (4 ≤ s.dash.pc → s.dash.q3 = some (countActiveTasks s.db client_id)) ∧
    (5 ≤ s.dash.pc → s.dash.q4 = some (countEvents s.db client_id))) ∧
  (s.dash.pc = 6 →
    ∃ d0 : Db, s.dash.q1 = some (countEmployees d0 client_id) ∧
      s.dash.q2 = some (sumSalaries d0 client_id) ∧
      s.dash.q3 = some (countActiveTasks d0 client_id) ∧
      s.dash.q4 = some (countEvents d0 client_id))


theorem cstep_preserves_DashInv (client_id : String) (s s' : CState) (op : COp)
    (hstep : cstep client_id s op = some s') (hinv : DashInv client_id s) :
    DashInv client_id s' := by
  obtain ⟨db, lock, pc, q1, q2, q3, q4⟩ := s
  obtain ⟨hrun, hdone⟩ := hinv
  dsimp only at hrun hdone
  cases op with
  | dashStep =>
    simp only [cstep, dashMicroStep] at hstep
    rcases pc with _ | _ | _ | _ | _ | _ | pc'
    · simp only [ite_eq_iff, reduceCtorEq, and_false, or_false, Option.some.injEq] at hstep
      obtain ⟨hl, rfl⟩ := hstep
      dsimp only [DashInv]
      refine ⟨?_, ?_⟩
      · rintro ⟨-, -⟩
        exact ⟨rfl, fun hpc => absurd hpc (by omega), fun hpc => absurd hpc (by omega),
               fun hpc => absurd hpc (by omega), fun hpc => absurd hpc (by omega)⟩
      · intro h6; exact absurd h6 (by omega)
    · simp only [ite_eq_iff, reduceCtorEq, and_false, or_false, Option.some.injEq] at hstep
      obtain ⟨hl, rfl⟩ := hstep
      dsimp only [DashInv]
      refine ⟨?_, ?_⟩
      · rintro ⟨-, -⟩
        exact ⟨hl, fun _ => rfl, fun hpc => absurd hpc (by omega),
               fun hpc => absurd hpc (by omega), fun hpc => absurd hpc (by omega)⟩
      · intro h6; exact absurd h6 (by omega)
    · simp only [ite_eq_iff, reduceCtorEq, and_false, or_false, Option.some.injEq] at hstep
      obtain ⟨hl, rfl⟩ := hstep
      dsimp only [DashInv]
      obtain ⟨-, hq1, -, -, -⟩ := hrun (by omega)
      refine ⟨?_, ?_⟩
      · rintro ⟨-, -⟩
        exact ⟨hl, fun _ => hq1 (by omega), fun _ => rfl,
               fun hpc => absurd hpc (by omega), fun hpc => absurd hpc (by omega)⟩
      · intro h6; exact absurd h6 (by omega)
    · simp only [ite_eq_iff, reduceCtorEq, and_false, or_false, Option.some.injEq] at hstep
      obtain ⟨hl, rfl⟩ := hstep
      dsimp only [DashInv]
      obtain ⟨-, hq1, hq2, -, -⟩ := hrun (by omega)
      refine ⟨?_, ?_⟩
      · rintro ⟨-, -⟩
        exact ⟨hl, fun _ => hq1 (by omega), fun _ => hq2 (by omega), fun _ => rfl,
               fun hpc => absurd hpc (by omega)⟩
      · intro h6; exact absurd h6 (by omega)
    · simp only [ite_eq_iff, reduceCtorEq, and_false, or_false, Option.some.injEq] at hstep
      obtain ⟨hl, rfl⟩ := hstep
      dsimp only [DashInv]
      obtain ⟨-, hq1, hq2, hq3, -⟩ := hrun (by omega)
      refine ⟨?_, ?_⟩
      · rintro ⟨-, -⟩
        exact ⟨hl, fun _ => hq1 (by omega), fun _ => hq2 (by omega),
               fun _ => hq3 (by omega), fun _ => rfl⟩
      · intro h6; exact absurd h6 (by omega)
    · simp only [ite_eq_iff, reduceCtorEq, and_false, or_false, Option.some.injEq] at hstep
      obtain ⟨hl, rfl⟩ := hstep
      dsimp only [DashInv]
      obtain ⟨-, hq1, hq2, hq3, hq4⟩ := hrun (by omega)
      refine ⟨?_, ?_⟩
      · rintro ⟨-, h5'⟩; exact absurd h5' (by omega)
      · intro _
        exact ⟨db, hq1 (by omega), hq2 (by omega), hq3 (by omega), hq4 (by omega)⟩
    · exact Option.noConfusion hstep
  | envAcquire =>
    simp only [cstep] at hstep
    split at hstep
    · cases hstep
      refine ⟨?_, fun h6 => hdone h6⟩
      intro h
      obtain ⟨hl, -⟩ := hrun h
      simp_all
    · cases hstep
  | envWrite g =>
    simp only [cstep] at hstep
    split at hstep
    · cases hstep
      refine ⟨?_, fun h6 => hdone h6⟩
      intro h
      obtain ⟨hl, -⟩ := hrun h
      simp_all
    · cases hstep
  | envRelease =>
    simp only [cstep] at hstep
    split at hstep
    · cases hstep
      refine ⟨?_, fun h6 => hdone h6⟩
      intro h
      obtain ⟨hl, -⟩ := hrun h
      simp_all
    · cases hstep

/-- The invariant holds along any schedule. -/
theorem crun_DashInv (client_id : String) : ∀ (sched : List COp) (s s' : CState),
    DashInv client_id s → crun client_id s sched = some s' → DashInv client_id s' := by
  intro sched
  induction sched with
  | nil => intro s s' hinv hrun; simp only [crun] at hrun; cases hrun; exact hinv
  | cons op ops ih =>
    intro s s' hinv hrun
    simp only [crun] at hrun
    cases hs1 : cstep client_id s op with
    | none => rw [hs1] at hrun; cases hrun
    | some s1 =>
      rw [hs1] at hrun
      exact ih s1 s' (cstep_preserves_DashInv client_id s s1 op hs1 hinv) hrun

/-- The initial state satisfies the invariant. -/
theorem cinit_DashInv (client_id : String) (db : Db) : DashInv client_id (cinit db) := by
  constructor
  · rintro ⟨h1, -⟩; exact absurd h1 (by simp [cinit])
  · intro h6; exact absurd h6 (by simp [cinit])

/-! ## Generic row-counting lemmas under the primary-key discipline -/

theorem filter_eq_nil_of_nodup_key {α β : Type} (l : List α) (f : α → β)
    (hn : (l.map f).Nodup) (r : α) (hr : r ∈ l) (p : α → Bool) (hpr : p r = false)
    (hkey : ∀ x ∈ l, p x = true → f x = f r) : l.filter p = [] := by
  rw [List.filter_eq_nil_iff]
  intro x hx hpx
  have hxr : x = r :=
    List.inj_on_of_nodup_map hn hx hr (hkey x hx (by simpa using hpx))
  subst hxr
  simp_all

theorem filter_eq_singleton_of_nodup_key {α β : Type} (l : List α) (f : α → β)
    (hn : (l.map f).Nodup) (r : α) (hr : r ∈ l) (p : α → Bool) (hpr : p r = true)
    (hkey : ∀ x ∈ l, p x = true → f x = f r) : l.filter p = [r] := by
  induction l with
  | nil => cases hr
  | cons a t ih =>
    simp only [List.map_cons, List.nodup_cons] at hn
    obtain ⟨hna, hnt⟩ := hn
    rcases List.mem_cons.mp hr with heq | hrt
    · subst heq
      have ht : t.filter p = [] := by
        rw [List.filter_eq_nil_iff]
        intro x hx hpx
        have hfx : f x = f r := hkey x (List.mem_cons_of_mem _ hx) (by simpa using hpx)
        exact hna (hfx ▸ List.mem_map_of_mem f hx)
      simp [List.filter_cons, hpr, ht]
    · have hpa : p a = false := by
        cases hb : p a with
        | false => rfl
        | true =>
          have hfa : f a = f r := hkey a (List.mem_cons_self a t) hb
          exact absurd (hfa ▸ List.mem_map_of_mem f hrt) hna
      rw [List.filter_cons_of_neg (by simp [hpa])]
      exact ih hnt hrt (fun x hx hpx => hkey x (List.mem_cons_of_mem _ hx) hpx)

theorem length_filter_le_one_of_nodup_key {α β : Type} (l : List α) (f : α → β)
    (k : β) (hn : (l.map f).Nodup) (p : α → Bool)
    (hkey : ∀ x ∈ l, p x = true → f x = k) : (l.filter p).length ≤ 1 := by
  induction l with
  | nil => simp
  | cons a t ih =>
    simp only [List.map_cons, List.nodup_cons] at hn
    obtain ⟨hna, hnt⟩ := hn
    by_cases hpa : p a = true
    · have ht : t.filter p = [] := by
        rw [List.filter_eq_nil_iff]
        intro x hx hpx
        have h1 : f x = k := hkey x (List.mem_cons_of_mem _ hx) (by simpa using hpx)
        have h2 : f a = k := hkey a (List.mem_cons_self a t) hpa
        exact hna ((h2.trans h1.symm) ▸ List.mem_map_of_mem f hx)
      simp [List.filter_cons, hpa, ht]
    · rw [List.filter_cons_of_neg (by simpa using hpa)]
      exact ih hnt (fun x hx hpx => hkey x (List.mem_cons_of_mem _ hx) hpx)

theorem find?_eq_some_of_nodup_key {α β : Type} (l : List α) (f : α → β)
    (hn : (l.map f).Nodup) (r : α) (hr : r ∈ l) (p : α → Bool) (hpr : p r = true)
    (hkey : ∀ x ∈ l, p x = true → f x = f r) : l.find? p = some r := by
  induction l with
  | nil => cases hr
  | cons a t ih =>
    simp only [List.map_cons, List.nodup_cons] at hn
    obtain ⟨hna, hnt⟩ := hn
    rcases List.mem_cons.mp hr with heq | hrt
    · subst heq
      simp [List.find?_cons, hpr]
    · have hpa : p a = false := by
        cases hb : p a with
        | false => rfl
        | true =>
          have hfa : f a = f r := hkey a (List.mem_cons_self a t) hb
          exact absurd (hfa ▸ List.mem_map_of_mem f hrt) hna
      rw [List.find?_cons_of_neg _ (by simp [hpa])]
      exact ih hnt hrt (fun x hx hpx => hkey x (List.mem_cons_of_mem _ hx) hpx)

/-! Shared corollaries for the scoped `WHERE id = ? AND client_id = ?` queries. -/

theorem scoped_filter_eq_nil {ρ : Type} (l : List ρ) (fid fcid : ρ → String)
    (hn : (l.map fid).Nodup) (r : ρ) (hr : r ∈ l) (B : String) (hB : fcid r ≠ B) :
    l.filter (fun x => fid x == fid r && fcid x == B) = [] := by
  apply filter_eq_nil_of_nodup_key l fid hn r hr
  · simp [hB]
  · intro x hx hpx
    simp only [Bool.and_eq_true, beq_iff_eq] at hpx
    exact hpx.1

theorem scoped_filter_eq_singleton {ρ : Type} (l : List ρ) (fid fcid : ρ → String)
    (hn : (l.map fid).Nodup) (r : ρ) (hr : r ∈ l) :
    l.filter (fun x => fid x == fid r && fcid x == fcid r) = [r] := by
  apply filter_eq_singleton_of_nodup_key l fid hn r hr
  · simp
  · intro x hx hpx
    simp only [Bool.and_eq_true, beq_iff_eq] at hpx
    exact hpx.1

theorem update_map_id {ρ : Type} (l : List ρ) (p : ρ → Bool) (g : ρ → ρ)
    (h : ∀ x ∈ l, p x = false) : l.map (fun x => if p x then g x else x) = l := by
  have hcong : ∀ a ∈ l, (fun x => if p x then g x else x) a = id a := by
    intro a ha
    simp [h a ha]
  rw [List.map_congr_left hcong, List.map_id]

/-- C1: tenant isolation.  For tenants `A ≠ B` and any Employee/Task/Event row
owned by `A`, every operation scoped to `B` reports affected-row count 0 and
leaves the store unchanged (delete and flag update), and the scoped list
operations return only `B`-owned records — in particular never `A`'s row. -/
theorem C1_tenant_isolation (db : Db) (A B : String) (hAB : A ≠ B)
    (hwf : db.WellFormed) :
    (∀ r ∈ db.employees, r.client_id = A →
      (delete_employee db r.id B).1 = 0 ∧ (delete_employee db r.id B).2 = db ∧
      (∀ pd, (update_employee_paid_status db r.id B pd).1 = 0 ∧
             (update_employee_paid_status db r.id B pd).2 = db) ∧
      rowToEmployee r ∉ get_employees db B) ∧
    (∀ r ∈ db.tasks, r.client_id = A →
      (delete_task db r.id B).1 = 0 ∧ (delete_task db r.id B).2 = db ∧
      (∀ dn, (update_task_status db r.id B dn).1 = 0 ∧
             (update_task_status db r.id B dn).2 = db) ∧
      rowToTask r ∉ get_tasks db B) ∧
    (∀ r ∈ db.events, r.client_id = A →
      (delete_event db r.id B).1 = 0 ∧ (delete_event db r.id B).2 = db ∧
      rowToEvent r ∉ get_events db B) ∧
    (∀ e ∈ get_employees db B, e.client_id = B) ∧
    (∀ t ∈ get_tasks db B, t.client_id = B) ∧
    (∀ e ∈ get_events db B, e.client_id = B) := by
  obtain ⟨-, -, hne, hnt, hnv⟩ := hwf
  refine ⟨?_, ?_, ?_, ?_, ?_, ?_⟩
  · intro r hr hA
    have hB : r.client_id ≠ B := by rw [hA]; exact hAB
    have hnil : db.employees.filter (empMatch r.id B) = [] :=
      scoped_filter_eq_nil db.employees EmployeeRow.id EmployeeRow.client_id hne r hr B hB
    have hall : ∀ x ∈ db.employees, ¬(empMatch r.id B x = true) :=
      List.filter_eq_nil_iff.mp hnil
    have hkeep : db.employees.filter (fun x => !(empMatch r.id B x)) = db.employees :=
      List.filter_eq_self.mpr (by intro a ha; simpa using hall a ha)
    refine ⟨?_, ?_, ?_, ?_⟩
    · simp [delete_employee, hnil]
    · simp only [delete_employee, hkeep]
    · intro pd
      constructor
      · simp [update_employee_paid_status, hnil]
      · simp only [update_employee_paid_status]
        rw [update_map_id _ _ _ (fun x hx => Bool.not_eq_true _ ▸ hall x hx)]
    · intro hmem
      simp only [get_employees, List.mem_map, List.mem_insertionSort,
        List.mem_filter, beq_iff_eq] at hmem
      obtain ⟨x, ⟨-, hxB⟩, hxr⟩ := hmem
      have : x.client_id = r.client_id := congrArg Employee.client_id hxr
      rw [this, hA] at hxB
      exact hAB hxB
  · intro r hr hA
    have hB : r.client_id ≠ B := by rw [hA]; exact hAB
    have hnil : db.tasks.filter (taskMatch r.id B) = [] :=
      scoped_filter_eq_nil db.tasks TaskRow.id TaskRow.client_id hnt r hr B hB
    have hall : ∀ x ∈ db.tasks, ¬(taskMatch r.id B x = true) :=
      List.filter_eq_nil_iff.mp hnil
    have hkeep : db.tasks.filter (fun x => !(taskMatch r.id B x)) = db.tasks :=
      List.filter_eq_self.mpr (by intro a ha; simpa using hall a ha)
    refine ⟨?_, ?_, ?_, ?_⟩
    · simp [delete_task, hnil]
    · simp only [delete_task, hkeep]
    · intro dn
      constructor
      · simp [update_task_status, hnil]
      · simp only [update_task_status]
        rw [update_map_id _ _ _ (fun x hx => Bool.not_eq_true _ ▸ hall x hx)]
    · intro hmem
      simp only [get_tasks, List.mem_map, List.mem_insertionSort,
        List.mem_filter, beq_iff_eq] at hmem
      obtain ⟨x, ⟨-, hxB⟩, hxr⟩ := hmem
      have : x.client_id = r.client_id := congrArg Task.client_id hxr
      rw [this, hA] at hxB
      exact hAB hxB
  · intro r hr hA
    have hB : r.client_id ≠ B := by rw [hA]; exact hAB
    have hnil : db.events.filter (eventMatch r.id B) = [] :=
      scoped_filter_eq_nil db.events EventRow.id EventRow.client_id hnv r hr B hB
    have hall : ∀ x ∈ db.events, ¬(eventMatch r.id B x = true) :=
      List.filter_eq_nil_iff.mp hnil
    have hkeep : db.events.filter (fun x => !(eventMatch r.id B x)) = db.events :=
      List.filter_eq_self.mpr (by intro a ha; simpa using hall a ha)
    refine ⟨?_, ?_, ?_⟩
    · simp [delete_event, hnil]
    · simp only [delete_event, hkeep]
    · intro hmem
      simp only [get_events, List.mem_map, List.mem_insertionSort,
        List.mem_filter, beq_iff_eq] at hmem
      obtain ⟨x, ⟨-, hxB⟩, hxr⟩ := hmem
      have : x.client_id = r.client_id := congrArg Event.client_id hxr
      rw [this, hA] at hxB
      exact hAB hxB
  · intro e he
    simp only [get_employees, List.mem_map, List.mem_insertionSort,
      List.mem_filter, beq_iff_eq] at he
    obtain ⟨x, ⟨-, hxB⟩, hxe⟩ := he
    rw [← hxe]
    exact hxB
  · intro t ht
    simp only [get_tasks, List.mem_map, List.mem_insertionSort,
      List.mem_filter, beq_iff_eq] at ht
    obtain ⟨x, ⟨-, hxB⟩, hxt⟩ := ht
    rw [← hxt]
    exact hxB
  · intro e he
    simp only [get_events, List.mem_map, List.mem_insertionSort,
      List.mem_filter, beq_iff_eq] at he
    obtain ⟨x, ⟨-, hxB⟩, hxe⟩ := he
    rw [← hxe]
    exact hxB

instance (db : Db) : Decidable db.WellFormed := by
  unfold Db.WellFormed; infer_instance

/-- Concrete employee row owned by tenant `"A"`, for witnesses. -/
def c1emp : EmployeeRow :=
  ⟨"e1", "A", "Ann", "dev", 5, "active", 0, "2024-01-01T00:00:00+00:00"⟩

/-- Concrete task row owned by tenant `"A"`. -/
def c1task : TaskRow := ⟨"t1", "A", "ship", "high", 0, "2024-01-01T00:00:00+00:00"⟩

/-- Concrete event row owned by tenant `"A"`. -/
def c1event : EventRow :=
  ⟨"v1", "A", "kickoff", "", "2024-02-01", "", "2024-02-01", "", "blue",
   "2024-01-01T00:00:00+00:00"⟩

/-- Concrete store for witnesses: one employee, task and event, all owned by
tenant `"A"`. -/
def c1db : Db := ⟨[], [c1emp], [c1task], [c1event]⟩

/-- Witness for C1 at a concrete store: tenant `"B"`'s scoped deletes of
`"A"`'s rows touch 0 rows each. -/
theorem C1_tenant_isolation_witness :
    (("A" : String) ≠ "B") ∧ c1db.WellFormed ∧
    ((delete_employee c1db "e1" "B").1 = 0 ∧
     (delete_task c1db "t1" "B").1 = 0 ∧
     (delete_event c1db "v1" "B").1 = 0) :=
  ⟨by decide, by decide,
   by
    have h := C1_tenant_isolation c1db "A" "B" (by decide) (by decide)
    refine ⟨?_, ?_, ?_⟩
    · exact (h.1 c1emp (by decide) (by decide)).1
    · exact (h.2.1 c1task (by decide) (by decide)).1
    · exact (h.2.2.1 c1event (by decide) (by decide)).1⟩

/-! ## C2: session lifecycle -/

theorem trimBearerAux_of_not_prefix (fuel : Nat) (l : List Char)
    (h : ¬("Bearer ".data.isPrefixOf l = true)) : trimBearerAux fuel l = l := by
  cases fuel with
  | zero => rfl
  | succ f => simp [trimBearerAux, h]

theorem trimBearer_of_not_prefix (l : List Char)
    (h : ¬("Bearer ".data.isPrefixOf l = true)) : trimBearer l = l :=
  trimBearerAux_of_not_prefix _ _ h

theorem trimBearer_append (l : List Char)
    (h : ¬("Bearer ".data.isPrefixOf l = true)) :
    trimBearer ("Bearer ".data ++ l) = l := by
  have h7 : ("Bearer ".data).length = 7 := by decide
  have hlen : ("Bearer ".data ++ l).length = l.length + 7 := by
    rw [List.length_append, h7]; omega
  rw [trimBearer, hlen, show l.length + 7 = (l.length + 6) + 1 from rfl,
    trimBearerAux, if_pos (by
      rw [List.isPrefixOf_iff_prefix]
      exact List.prefix_append _ _),
    show ("Bearer ".data ++ l).drop 7 = l from h7 ▸ List.drop_left _ _]
  exact trimBearerAux_of_not_prefix _ _ h

/-- C2: session lifecycle.  (a) A successful login binds the fresh token to
the logged-in client's id, and resolving the bearer header built from that
token immediately afterwards yields exactly that client id (uuid tokens never
start with `"Bearer "`).  (b) A missing header, a header without the
`Bearer ` scheme, or a bearer token without a binding in the registry all
resolve to `none`, i.e. the request is treated as unauthenticated. -/
theorem C2_session_lifecycle :
    (∀ (db : Db) (sessions : List (String × String)) (u pw tok : String)
       (sid cid name : String) (sessions' : List (String × String)),
       login_client db sessions u pw tok = (.ok sid cid name, sessions') →
       ¬("Bearer ".data.isPrefixOf sid.data = true) →
       get_client_id_from_header (some ("Bearer " ++ sid)) sessions' = some cid) ∧
    (∀ sessions, get_client_id_from_header none sessions = none) ∧
    (∀ (a : String) sessions, ¬("Bearer ".data.isPrefixOf a.data = true) →
       get_client_id_from_header (some a) sessions = none) ∧
    (∀ (a : String) (sessions : List (String × String)),
       (∀ pr ∈ sessions, pr.1 ≠ String.mk (trimBearer a.data)) →
       get_client_id_from_header (some a) sessions = none) := by
  refine ⟨?_, ?_, ?_, ?_⟩
  · intro db sessions u pw tok sid cid name sessions' hlogin hpre
    simp only [login_client] at hlogin
    cases hu : get_client_by_username db u with
    | none => rw [hu] at hlogin; cases hlogin
    | some c =>
      rw [hu] at hlogin
      dsimp only at hlogin
      by_cases hpw : (c.password_hash == pw) = true
      · rw [if_pos hpw] at hlogin
        obtain ⟨heq, rfl⟩ : (LoginOutcome.ok tok c.id c.business_name = .ok sid cid name) ∧
            sessionInsert tok c.id sessions = sessions' := by
          exact ⟨congrArg Prod.fst hlogin, congrArg Prod.snd hlogin⟩
        obtain ⟨rfl, rfl, -⟩ : tok = sid ∧ c.id = cid ∧ c.business_name = name := by
          cases heq; exact ⟨rfl, rfl, rfl⟩
        simp only [get_client_id_from_header, String.data_append,
          if_pos (List.isPrefixOf_iff_prefix.mpr (List.prefix_append _ _))]
        rw [trimBearer_append _ hpre]
        simp [sessionResolve, sessionInsert, List.find?_cons]
      · rw [if_neg hpw] at hlogin
        cases congrArg Prod.fst hlogin
  · intro sessions; rfl
  · intro a sessions h
    simp only [get_client_id_from_header, if_neg h]
  · intro a sessions h
    simp only [get_client_id_from_header]
    by_cases hpre : ("Bearer ".data.isPrefixOf a.data) = true
    · rw [if_pos hpre]
      simp only [sessionResolve, Option.map_eq_none', List.find?_eq_none]
      intro pr hpr
      simpa using h pr hpr
    · rw [if_neg hpre]

/-- Witness for C2: a concrete login stores the uuid-style token, and the
bearer lookup returns the bound tenant id; an unknown token resolves to
`none`. -/
theorem C2_session_lifecycle_witness :
    (login_client ⟨[⟨"cid1", "Biz", "", "", "", "", "e@x", "", "user1", "pw1",
        "2024-01-01T00:00:00+00:00"⟩], [], [], []⟩ [] "user1" "pw1" "tok-123" =
      (.ok "tok-123" "cid1" "Biz", [("tok-123", "cid1")])) ∧
    ¬("Bearer ".data.isPrefixOf ("tok-123" : String).data = true) ∧
    get_client_id_from_header (some ("Bearer " ++ "tok-123"))
      [("tok-123", "cid1")] = some "cid1" ∧
    get_client_id_from_header (some "Bearer zzz") [("tok-123", "cid1")] = none :=
  ⟨by decide, by decide,
   C2_session_lifecycle.1 ⟨[⟨"cid1", "Biz", "", "", "", "", "e@x", "", "user1", "pw1",
      "2024-01-01T00:00:00+00:00"⟩], [], [], []⟩ [] "user1" "pw1" "tok-123"
     "tok-123" "cid1" "Biz" [("tok-123", "cid1")] (by decide) (by decide),
   C2_session_lifecycle.2.2.2 "Bearer zzz" [("tok-123", "cid1")] (by decide)⟩

/-! ## C3: dashboard aggregation -/

/-- The §8 aggregate-scenario store: tenant `"T"` with salaries 1000 and
1500.5, one done and one pending task, and two events. -/
def c3db : Db :=
  ⟨[],
   [⟨"e1", "T", "Ann", "dev", 1000, "active", 0, "2024-01-01T00:00:00+00:00"⟩,
    ⟨"e2", "T", "Ben", "dev", 1500.5, "active", 0, "2024-01-01T00:00:00+00:00"⟩],
   [⟨"t1", "T", "shipped", "high", 1, "2024-01-01T00:00:00+00:00"⟩,
    ⟨"t2", "T", "pending", "high", 0, "2024-01-02T00:00:00+00:00"⟩],
   [⟨"v1", "T", "kickoff", "", "2024-02-01", "", "2024-02-01", "", "blue",
     "2024-01-01T00:00:00+00:00"⟩,
    ⟨"v2", "T", "retro", "", "2024-03-01", "", "2024-03-01", "", "red",
     "2024-01-01T00:00:00+00:00"⟩]⟩

/-- C3: dashboard aggregation correctness.  For every tenant and store state,
`total_employees` is the number of the tenant's employee records,
`monthly_payroll` the sum of their salaries (0 when there are none, via
`COALESCE`), `active_tasks` the number of the tenant's tasks with
`done = false` (`done` is stored as 0/1 by this program), `total_events` the
number of the tenant's events; and on the §8 scenario store the result is
`{total_employees := 2, monthly_payroll := 2500.5, active_tasks := 1,
total_events := 2}`. -/
theorem C3_dashboard_stats (db : Db) (cid : String)
    (hdone : ∀ r ∈ db.tasks, r.done = 0 ∨ r.done = 1) :
    (get_dashboard_stats db cid).total_employees =
      ((get_employees db cid).length : Int) ∧
    (get_dashboard_stats db cid).monthly_payroll =
      ((get_employees db cid).map Employee.salary).sum ∧
    (get_dashboard_stats db cid).active_tasks =
      (((get_tasks db cid).filter (fun t => !t.done)).length : Int) ∧
    (get_dashboard_stats db cid).total_events = ((get_events db cid).length : Int) ∧
    get_dashboard_stats c3db "T" = ⟨2, 2500.5, 1, 2⟩ := by
  have hpermE : List.Perm
      ((db.employees.filter (fun r => r.client_id == cid)).insertionSort empOrder)
      (db.employees.filter (fun r => r.client_id == cid)) :=
    List.perm_insertionSort _ _
  have hpermT : List.Perm
      ((db.tasks.filter (fun r => r.client_id == cid)).insertionSort taskOrder)
      (db.tasks.filter (fun r => r.client_id == cid)) :=
    List.perm_insertionSort _ _
  refine ⟨?_, ?_, ?_, ?_, ?_⟩
  · simp only [get_dashboard_stats, countEmployees, get_employees, List.length_map,
      hpermE.length_eq]
  · simp only [get_dashboard_stats, sumSalaries, get_employees, List.map_map]
    rw [show Employee.salary ∘ rowToEmployee = EmployeeRow.salary from rfl]
    exact ((hpermE.map EmployeeRow.salary).sum_eq).symm
  · simp only [get_tasks, List.filter_map, List.length_map]
    rw [(hpermT.filter ((fun t : Task => !t.done) ∘ rowToTask)).length_eq,
      List.filter_filter]
    have hpq : ∀ r ∈ db.tasks,
        (r.client_id == cid && r.done == 0) =
          (((fun t : Task => !t.done) ∘ rowToTask) r && (r.client_id == cid)) := by
      intro r hr
      rcases hdone r hr with h | h <;> simp [rowToTask, h, Bool.and_comm]
    simp only [get_dashboard_stats, countActiveTasks]
    rw [List.filter_congr hpq]
  · simp only [get_dashboard_stats, countEvents, get_events, List.length_map,
      (List.perm_insertionSort eventOrder _).length_eq]
  · simp only [get_dashboard_stats, countEmployees, sumSalaries, countActiveTasks,
      countEvents, c3db]
    norm_num [List.filter, List.sum, DashboardStats.mk.injEq,
      show (((1 : Int) == 0)) = false from rfl, show (((0 : Int) == 0)) = true from rfl]

/-- Witness for C3: the scenario store satisfies the 0/1 discipline on the
`done` column, and the theorem's conclusion holds there. -/
theorem C3_dashboard_stats_witness :
    (∀ r ∈ c3db.tasks, r.done = 0 ∨ r.done = 1) ∧
    get_dashboard_stats c3db "T" = ⟨2, 2500.5, 1, 2⟩ :=
  ⟨by decide, (C3_dashboard_stats c3db "T" (by decide)).2.2.2.2⟩

/-! ## C4: no torn read in `get_dashboard_stats` -/

/-- C4 (amended): `get_dashboard_stats` holds the single connection mutex
across all four sub-queries, so in every interleaved execution — with any
number of concurrent lock-respecting `Storage` writers — the four sub-results
of a finished dashboard call are all computed from one single store state.
The spec's §4.3 torn-read scenario cannot occur through the `Storage` API. -/
theorem C4_dashboard_single_snapshot (db : Db) (client_id : String)
    (sched : List COp) (s' : CState)
    (hrun : crun client_id (cinit db) sched = some s') (hdone : s'.dash.pc = 6) :
    ∃ d0 : Db, dashResult s' = some (get_dashboard_stats d0 client_id) := by
  have hinv :=
    crun_DashInv client_id sched (cinit db) s' (cinit_DashInv client_id db) hrun
  obtain ⟨d0, h1, h2, h3, h4⟩ := hinv.2 hdone
  exact ⟨d0, by simp [dashResult, h1, h2, h3, h4, get_dashboard_stats]⟩

/-- C4 counterexample to the claim as stated: no execution of the model can
produce four sub-counts that reflect different store states — the torn read
the claim asserts to be possible is impossible. -/
theorem C4_no_torn_read : ¬TornReadPossible := by
  rintro ⟨db, cid, sched, s', hrun, h6, hall⟩
  have hinv := crun_DashInv cid sched (cinit db) s' (cinit_DashInv cid db) hrun
  obtain ⟨d0, h1, h2, h3, h4⟩ := hinv.2 h6
  exact hall d0 (by simp [dashResult, h1, h2, h3, h4, get_dashboard_stats])

/-- A concrete interleaving: a writer empties the store under the lock, then
the dashboard runs. -/
def c4sched : List COp :=
  [.envAcquire, .envWrite (fun _ => Db.empty), .envRelease,
   .dashStep, .dashStep, .dashStep, .dashStep, .dashStep, .dashStep]

/-- Witness for C4 on the concrete interleaving `c4sched`. -/
theorem C4_dashboard_single_snapshot_witness :
    crun "T" (cinit c1db) c4sched =
      some ⟨Db.empty, .free, ⟨6, some 0, some 0, some 0, some 0⟩⟩ ∧
    (⟨Db.empty, .free, ⟨6, some 0, some 0, some 0, some 0⟩⟩ : CState).dash.pc = 6 ∧
    ∃ d0 : Db, dashResult ⟨Db.empty, .free, ⟨6, some 0, some 0, some 0, some 0⟩⟩ =
      some (get_dashboard_stats d0 "T") :=
  ⟨by decide, rfl,
   C4_dashboard_single_snapshot c1db "T" c4sched
     ⟨Db.empty, .free, ⟨6, some 0, some 0, some 0, some 0⟩⟩ (by decide) rfl⟩

/-! ## C5: create/list round trip -/

theorem rowToEmployee_employeeToRow (e : Employee) (h : e.created_at.Valid) :
    rowToEmployee (employeeToRow e) = e := by
  simp only [rowToEmployee, employeeToRow, Timestamp.toRfc3339, parseCreatedAt,
    parseRfc3339, show (String.mk (toRfc3339Chars e.created_at)).data =
      toRfc3339Chars e.created_at from rfl]
  have hrt := parseRfc3339_toRfc3339 e.created_at h
  simp only [parseRfc3339, Timestamp.toRfc3339,
    show (String.mk (toRfc3339Chars e.created_at)).data =
      toRfc3339Chars e.created_at from rfl] at hrt
  rw [hrt]
  cases e with
  | mk id cid name ttl sal st pd ca => cases pd <;> rfl

theorem rowToTask_taskToRow (t : Task) (h : t.created_at.Valid) :
    rowToTask (taskToRow t) = t := by
  simp only [rowToTask, taskToRow, parseCreatedAt, parseRfc3339, Timestamp.toRfc3339,
    show (String.mk (toRfc3339Chars t.created_at)).data =
      toRfc3339Chars t.created_at from rfl]
  have hrt := parseRfc3339_toRfc3339 t.created_at h
  simp only [parseRfc3339, Timestamp.toRfc3339,
    show (String.mk (toRfc3339Chars t.created_at)).data =
      toRfc3339Chars t.created_at from rfl] at hrt
  rw [hrt]
  cases t with
  | mk id cid ttl pr dn ca => cases dn <;> rfl

theorem rowToEvent_eventToRow (v : Event) (h : v.created_at.Valid) :
    rowToEvent (eventToRow v) = v := by
  simp only [rowToEvent, eventToRow, parseCreatedAt, parseRfc3339, Timestamp.toRfc3339,
    show (String.mk (toRfc3339Chars v.created_at)).data =
      toRfc3339Chars v.created_at from rfl]
  have hrt := parseRfc3339_toRfc3339 v.created_at h
  simp only [parseRfc3339, Timestamp.toRfc3339,
    show (String.mk (toRfc3339Chars v.created_at)).data =
      toRfc3339Chars v.created_at from rfl] at hrt
  rw [hrt]
  rfl

theorem create_employee_ok (db db' : Db) (e : Employee)
    (h : create_employee db e = .ok db') :
    db' = { db with employees := db.employees ++ [employeeToRow e] } := by
  simp only [create_employee] at h
  split at h
  · cases h
  · exact (Except.ok.inj h).symm

theorem create_task_ok (db db' : Db) (t : Task)
    (h : create_task db t = .ok db') :
    db' = { db with tasks := db.tasks ++ [taskToRow t] } := by
  simp only [create_task] at h
  split at h
  · cases h
  · exact (Except.ok.inj h).symm

theorem create_event_ok (db db' : Db) (v : Event)
    (h : create_event db v = .ok db') :
    db' = { db with events := db.events ++ [eventToRow v] } := by
  simp only [create_event] at h
  split at h
  · cases h
  · exact (Except.ok.inj h).symm

/-- C5: create/list round trip.  For each entity kind, creating a record with
a calendar-valid timestamp and then listing that kind for the owning tenant
returns a record equal to the created one in every field — boolean flag,
salary and the RFC 3339-cycled timestamp included. -/
theorem C5_create_list_roundtrip :
    (∀ (db db' : Db) (e : Employee), e.created_at.Valid →
       create_employee db e = .ok db' → e ∈ get_employees db' e.client_id) ∧
    (∀ (db db' : Db) (t : Task), t.created_at.Valid →
       create_task db t = .ok db' → t ∈ get_tasks db' t.client_id) ∧
    (∀ (db db' : Db) (v : Event), v.created_at.Valid →
       create_event db v = .ok db' → v ∈ get_events db' v.client_id) := by
  refine ⟨?_, ?_, ?_⟩
  · intro db db' e hv hok
    obtain rfl := create_employee_ok db db' e hok
    simp only [get_employees, List.mem_map]
    refine ⟨employeeToRow e, ?_, rowToEmployee_employeeToRow e hv⟩
    rw [List.mem_insertionSort, List.mem_filter]
    exact ⟨List.mem_append_right _ (List.mem_singleton_self _),
           by simp [employeeToRow]⟩
  · intro db db' t hv hok
    obtain rfl := create_task_ok db db' t hok
    simp only [get_tasks, List.mem_map]
    refine ⟨taskToRow t, ?_, rowToTask_taskToRow t hv⟩
    rw [List.mem_insertionSort, List.mem_filter]
    exact ⟨List.mem_append_right _ (List.mem_singleton_self _),
           by simp [taskToRow]⟩
  · intro db db' v hv hok
    obtain rfl := create_event_ok db db' v hok
    simp only [get_events, List.mem_map]
    refine ⟨eventToRow v, ?_, rowToEvent_eventToRow v hv⟩
    rw [List.mem_insertionSort, List.mem_filter]
    exact ⟨List.mem_append_right _ (List.mem_singleton_self _),
           by simp [eventToRow]⟩

/-- Concrete entities for the C5 witness, with whole-second, millisecond and
arbitrary-nanosecond timestamps to exercise all serializer branches. -/
def c5emp : Employee :=
  ⟨"e9", "A", "Zoe", "dev", 7.5, "active", false, ⟨2024, 3, 5, 10, 20, 30, 0⟩⟩

def c5task : Task :=
  ⟨"t9", "A", "write", "low", false, ⟨2024, 3, 5, 10, 20, 30, 500000000⟩⟩

def c5event : Event :=
  ⟨"v9", "A", "demo", "", "2024-04-01", "", "2024-04-01", "", "green",
   ⟨2024, 3, 5, 10, 20, 30, 123456789⟩⟩

/-- Witness for C5: concrete create-then-list round trips for all three
entity kinds. -/
theorem C5_create_list_roundtrip_witness :
    (c5emp.created_at.Valid ∧
     create_employee Db.empty c5emp = .ok ⟨[], [employeeToRow c5emp], [], []⟩ ∧
     c5emp ∈ get_employees ⟨[], [employeeToRow c5emp], [], []⟩ "A") ∧
    (c5task.created_at.Valid ∧
     create_task Db.empty c5task = .ok ⟨[], [], [taskToRow c5task], []⟩ ∧
     c5task ∈ get_tasks ⟨[], [], [taskToRow c5task], []⟩ "A") ∧
    (c5event.created_at.Valid ∧
     create_event Db.empty c5event = .ok ⟨[], [], [], [eventToRow c5event]⟩ ∧
     c5event ∈ get_events ⟨[], [], [], [eventToRow c5event]⟩ "A") :=
  ⟨⟨by decide, rfl,
    C5_create_list_roundtrip.1 Db.empty ⟨[], [employeeToRow c5emp], [], []⟩ c5emp
      (by decide) rfl⟩,
   ⟨by decide, rfl,
    C5_create_list_roundtrip.2.1 Db.empty ⟨[], [], [taskToRow c5task], []⟩ c5task
      (by decide) rfl⟩,
   ⟨by decide, rfl,
    C5_create_list_roundtrip.2.2 Db.empty ⟨[], [], [], [eventToRow c5event]⟩ c5event
      (by decide) rfl⟩⟩

/-! ## C6: list ordering -/

theorem rowToTask_toRfc3339 (r : TaskRow) (ts : Timestamp) (hv : ts.Valid)
    (heq : r.created_at = ts.toRfc3339) :
    (rowToTask r).created_at.toRfc3339 = r.created_at := by
  simp only [rowToTask, parseCreatedAt, heq, parseRfc3339_toRfc3339 ts hv,
    Option.getD_some]

/-- Store with employees created in order Bob, Alice, Carol for tenant `"C"`. -/
def c6empDb : Db :=
  ⟨[],
   [⟨"e1", "C", "Bob", "dev", 1, "a", 0, "2024-01-01T00:00:00+00:00"⟩,
    ⟨"e2", "C", "Alice", "dev", 1, "a", 0, "2024-01-02T00:00:00+00:00"⟩,
    ⟨"e3", "C", "Carol", "dev", 1, "a", 0, "2024-01-03T00:00:00+00:00"⟩],
   [], []⟩

/-- Store with tasks created at times t1 < t2 < t3 for tenant `"C"`. -/
def c6taskDb : Db :=
  ⟨[], [],
   [⟨"t1", "C", "first", "low", 0, "2024-01-01T00:00:00+00:00"⟩,
    ⟨"t2", "C", "second", "low", 0, "2024-01-02T00:00:00+00:00"⟩,
    ⟨"t3", "C", "third", "low", 0, "2024-01-03T00:00:00+00:00"⟩],
   []⟩

/-- C6: list ordering.  Employee listings are sorted by name ascending and
event listings by start date ascending (BINARY text collation); task listings
are sorted by creation time descending — for stores whose `created_at` texts
are RFC 3339 serializations of valid timestamps (the only texts this program
writes), the records come back ordered by descending serialized creation
time.  On concrete stores: employees created as Bob, Alice, Carol list as
[Alice, Bob, Carol], and tasks created at t1 < t2 < t3 list as [t3, t2, t1]. -/
theorem C6_list_ordering :
    (∀ (db : Db) (cid : String),
       List.Sorted (fun a b : Employee => strLe a.name b.name = true)
         (get_employees db cid)) ∧
    (∀ (db : Db) (cid : String),
       (∀ r ∈ db.tasks, r.client_id = cid → ∃ ts : Timestamp, ts.Valid ∧
          r.created_at = ts.toRfc3339) →
       List.Sorted
         (fun a b : Task => strLe b.created_at.toRfc3339 a.created_at.toRfc3339 = true)
         (get_tasks db cid)) ∧
    (∀ (db : Db) (cid : String),
       List.Sorted (fun a b : Event => strLe a.start_date b.start_date = true)
         (get_events db cid)) ∧
    (get_employees c6empDb "C").map Employee.name = ["Alice", "Bob", "Carol"] ∧
    (get_tasks c6taskDb "C").map Task.id = ["t3", "t2", "t1"] := by
  refine ⟨?_, ?_, ?_, by decide, by decide⟩
  · intro db cid
    have hs : List.Sorted empOrder
        (List.insertionSort empOrder (db.employees.filter (fun r => r.client_id == cid))) :=
      List.sorted_insertionSort empOrder _
    exact List.Pairwise.map rowToEmployee (fun a b h => h) hs
  · intro db cid hts
    have hs : List.Sorted taskOrder
        (List.insertionSort taskOrder (db.tasks.filter (fun r => r.client_id == cid))) :=
      List.sorted_insertionSort taskOrder _
    refine List.pairwise_map.mpr (hs.imp_of_mem ?_)
    intro a b ha hb hR
    rw [List.mem_insertionSort, List.mem_filter] at ha hb
    obtain ⟨hamem, hacid⟩ := ha
    obtain ⟨hbmem, hbcid⟩ := hb
    obtain ⟨tsa, hva, heqa⟩ := hts a hamem (by simpa using hacid)
    obtain ⟨tsb, hvb, heqb⟩ := hts b hbmem (by simpa using hbcid)
    rw [rowToTask_toRfc3339 a tsa hva heqa, rowToTask_toRfc3339 b tsb hvb heqb]
    exact hR
  · intro db cid
    have hs : List.Sorted eventOrder
        (List.insertionSort eventOrder (db.events.filter (fun r => r.client_id == cid))) :=
      List.sorted_insertionSort eventOrder _
    exact List.Pairwise.map rowToEvent (fun a b h => h) hs

/-- Witness for C6: the RFC 3339 well-formedness hypothesis holds on the
concrete task store, and the sortedness conclusions hold there. -/
theorem C6_list_ordering_witness :
    (∀ r ∈ c6taskDb.tasks, r.client_id = "C" → ∃ ts : Timestamp, ts.Valid ∧
       r.created_at = ts.toRfc3339) ∧
    List.Sorted (fun a b : Employee => strLe a.name b.name = true)
      (get_employees c6empDb "C") ∧
    List.Sorted
      (fun a b : Task => strLe b.created_at.toRfc3339 a.created_at.toRfc3339 = true)
      (get_tasks c6taskDb "C") := by
  have hts : ∀ r ∈ c6taskDb.tasks, r.client_id = "C" → ∃ ts : Timestamp, ts.Valid ∧
      r.created_at = ts.toRfc3339 := by
    intro r hr hcid
    fin_cases hr
    · exact ⟨⟨2024, 1, 1, 0, 0, 0, 0⟩, by decide, by decide⟩
    · exact ⟨⟨2024, 1, 2, 0, 0, 0, 0⟩, by decide, by decide⟩
    · exact ⟨⟨2024, 1, 3, 0, 0, 0, 0⟩, by decide, by decide⟩
  exact ⟨hts, C6_list_ordering.1 c6empDb "C", C6_list_ordering.2.1 c6taskDb "C" hts⟩

/-! ## C7: idempotent delete -/

/-- C7: idempotent delete.  Deleting an existing owned row by its
`(id, tenantId)` pair reports affected-row count 1, and repeating the same
delete on the resulting store reports 0; moreover every delete reports at
most one affected row (0 or 1), for each of the three entity kinds. -/
theorem C7_idempotent_delete (db : Db) (hwf : db.WellFormed) :
    (∀ r ∈ db.employees,
       (delete_employee db r.id r.client_id).1 = 1 ∧
       (delete_employee (delete_employee db r.id r.client_id).2 r.id r.client_id).1 = 0) ∧
    (∀ r ∈ db.tasks,
       (delete_task db r.id r.client_id).1 = 1 ∧
       (delete_task (delete_task db r.id r.client_id).2 r.id r.client_id).1 = 0) ∧
    (∀ r ∈ db.events,
       (delete_event db r.id r.client_id).1 = 1 ∧
       (delete_event (delete_event db r.id r.client_id).2 r.id r.client_id).1 = 0) ∧
    (∀ id cid, (delete_employee db id cid).1 ≤ 1 ∧ (delete_task db id cid).1 ≤ 1 ∧
       (delete_event db id cid).1 ≤ 1) := by
  obtain ⟨-, -, hne, hnt, hnv⟩ := hwf
  refine ⟨?_, ?_, ?_, ?_⟩
  · intro r hr
    have hsing : db.employees.filter (empMatch r.id r.client_id) = [r] :=
      scoped_filter_eq_singleton db.employees EmployeeRow.id EmployeeRow.client_id
        hne r hr
    constructor
    · simp [delete_employee, hsing]
    · simp only [delete_employee, List.filter_filter]
      simp
  · intro r hr
    have hsing : db.tasks.filter (taskMatch r.id r.client_id) = [r] :=
      scoped_filter_eq_singleton db.tasks TaskRow.id TaskRow.client_id hnt r hr
    constructor
    · simp [delete_task, hsing]
    · simp only [delete_task, List.filter_filter]
      simp
  · intro r hr
    have hsing : db.events.filter (eventMatch r.id r.client_id) = [r] :=
      scoped_filter_eq_singleton db.events EventRow.id EventRow.client_id hnv r hr
    constructor
    · simp [delete_event, hsing]
    · simp only [delete_event, List.filter_filter]
      simp
  · intro idv cidv
    refine ⟨?_, ?_, ?_⟩
    · exact length_filter_le_one_of_nodup_key db.employees EmployeeRow.id idv hne _
        (fun x hx hpx => by
          simp only [empMatch, Bool.and_eq_true, beq_iff_eq] at hpx
          exact hpx.1)
    · exact length_filter_le_one_of_nodup_key db.tasks TaskRow.id idv hnt _
        (fun x hx hpx => by
          simp only [taskMatch, Bool.and_eq_true, beq_iff_eq] at hpx
          exact hpx.1)
    · exact length_filter_le_one_of_nodup_key db.events EventRow.id idv hnv _
        (fun x hx hpx => by
          simp only [eventMatch, Bool.and_eq_true, beq_iff_eq] at hpx
          exact hpx.1)

/-- Witness for C7 on the concrete store: double-delete of each owned row
reports 1 then 0. -/
theorem C7_idempotent_delete_witness :
    c1db.WellFormed ∧
    ((delete_employee c1db "e1" "A").1 = 1 ∧
     (delete_employee (delete_employee c1db "e1" "A").2 "e1" "A").1 = 0) ∧
    ((delete_task c1db "t1" "A").1 = 1 ∧
     (delete_task (delete_task c1db "t1" "A").2 "t1" "A").1 = 0) ∧
    ((delete_event c1db "v1" "A").1 = 1 ∧
     (delete_event (delete_event c1db "v1" "A").2 "v1" "A").1 = 0) :=
  ⟨by decide,
   (C7_idempotent_delete c1db (by decide)).1 c1emp (by decide),
   (C7_idempotent_delete c1db (by decide)).2.1 c1task (by decide),
   (C7_idempotent_delete c1db (by decide)).2.2.1 c1event (by decide)⟩

/-! ## C8: login-name uniqueness -/

/-- The storage state the caller of `create_client` ends up with: the new
state on success, the old state untouched when the single `INSERT` statement
fails (SQLite one-statement atomicity). -/
def create_client_step (db : Db) (c : Client) : Db :=
  match create_client db c with
  | .ok d => d
  | .error _ => db

/-- C8: creating a tenant whose login name equals an existing tenant's login
name fails with a constraint violation, and the store — the existing tenant's
row and all child tables — is unchanged by the failed creation. -/
theorem C8_username_uniqueness (db : Db) (existing : ClientRow) (c : Client)
    (hmem : existing ∈ db.clients) (huser : existing.username = c.username) :
    create_client db c = .error .constraintViolation ∧
    create_client_step db c = db := by
  have hany : db.clients.any (fun r => r.id == c.id || r.username == c.username) = true := by
    rw [List.any_eq_true]
    exact ⟨existing, hmem, by simp [huser]⟩
  constructor
  · simp [create_client, hany]
  · simp [create_client_step, create_client, hany]

/-- Existing tenant row for the C8 witness. -/
def c8row : ClientRow :=
  ⟨"cid1", "Biz", "", "", "", "", "e@x", "", "user1", "pw1",
   "2024-01-01T00:00:00+00:00"⟩

/-- Second tenant reusing the login name `"user1"`. -/
def c8dup : Client :=
  ⟨"cid2", "Other", "", "", "", "", "o@x", "", "user1", "pw2",
   ⟨2024, 2, 2, 0, 0, 0, 0⟩⟩

/-- Witness for C8: the duplicate onboarding fails and the store is kept. -/
theorem C8_username_uniqueness_witness :
    c8row ∈ (⟨[c8row], [], [], []⟩ : Db).clients ∧ c8row.username = c8dup.username ∧
    (create_client ⟨[c8row], [], [], []⟩ c8dup = .error .constraintViolation ∧
     create_client_step ⟨[c8row], [], [], []⟩ c8dup = ⟨[c8row], [], [], []⟩) :=
  ⟨by decide, by decide,
   C8_username_uniqueness ⟨[c8row], [], [], []⟩ c8row c8dup (by decide) (by decide)⟩

/-! ## C9: malformed stored timestamps fall back to the epoch -/

/-- C9: for every stored row whose `created_at` text fails RFC 3339 parsing,
the reads still succeed: the listing for the owning tenant contains the row's
record, and a client fetched by username is still returned, in both cases
with the timestamp replaced by the epoch default `1970-01-01T00:00:00Z`. -/
theorem C9_malformed_timestamp_fallback (db : Db) :
    (∀ (cid : String) (r : EmployeeRow), r ∈ db.employees → r.client_id = cid →
       parseRfc3339 r.created_at = none →
       rowToEmployee r ∈ get_employees db cid ∧
       (rowToEmployee r).created_at = epochTimestamp) ∧
    (∀ (cid : String) (r : TaskRow), r ∈ db.tasks → r.client_id = cid →
       parseRfc3339 r.created_at = none →
       rowToTask r ∈ get_tasks db cid ∧ (rowToTask r).created_at = epochTimestamp) ∧
    (∀ (cid : String) (r : EventRow), r ∈ db.events → r.client_id = cid →
       parseRfc3339 r.created_at = none →
       rowToEvent r ∈ get_events db cid ∧ (rowToEvent r).created_at = epochTimestamp) ∧
    (∀ (u : String) (r : ClientRow), (db.clients.map ClientRow.username).Nodup →
       r ∈ db.clients → r.username = u → parseRfc3339 r.created_at = none →
       get_client_by_username db u = some (rowToClient r) ∧
       (rowToClient r).created_at = epochTimestamp) := by
  refine ⟨?_, ?_, ?_, ?_⟩
  · intro cid r hr hcid hparse
    refine ⟨?_, by simp [rowToEmployee, parseCreatedAt, hparse, epochTimestamp]⟩
    apply List.mem_map_of_mem rowToEmployee
    rw [List.mem_insertionSort, List.mem_filter]
    exact ⟨hr, by simp [hcid]⟩
  · intro cid r hr hcid hparse
    refine ⟨?_, by simp [rowToTask, parseCreatedAt, hparse, epochTimestamp]⟩
    apply List.mem_map_of_mem rowToTask
    rw [List.mem_insertionSort, List.mem_filter]
    exact ⟨hr, by simp [hcid]⟩
  · intro cid r hr hcid hparse
    refine ⟨?_, by simp [rowToEvent, parseCreatedAt, hparse, epochTimestamp]⟩
    apply List.mem_map_of_mem rowToEvent
    rw [List.mem_insertionSort, List.mem_filter]
    exact ⟨hr, by simp [hcid]⟩
  · intro u r hn hr huser hparse
    refine ⟨?_, by simp [rowToClient, parseCreatedAt, hparse, epochTimestamp]⟩
    have hfind : db.clients.find? (fun x => x.username == u) = some r :=
      find?_eq_some_of_nodup_key db.clients ClientRow.username hn r hr _
        (by simp [huser])
        (fun x hx hpx => by
          simp only [beq_iff_eq] at hpx
          rw [hpx, huser])
    simp [get_client_by_username, hfind]

/-- Store with rows whose `created_at` is not RFC 3339, for the C9 witness. -/
def c9db : Db :=
  ⟨[⟨"cid1", "Biz", "", "", "", "", "e@x", "", "user1", "pw1", "not-a-date"⟩],
   [⟨"e1", "A", "Ann", "dev", 5, "active", 0, "garbage"⟩],
   [⟨"t1", "A", "ship", "high", 0, ""⟩],
   [⟨"v1", "A", "kick", "", "2024-02-01", "", "2024-02-01", "", "blue",
     "2024-13-99T99:99:99+00:00"⟩]⟩

/-- Witness for C9: all four reads return the rows with the epoch default. -/
theorem C9_malformed_timestamp_fallback_witness :
    (parseRfc3339 "garbage" = none ∧
     rowToEmployee ⟨"e1", "A", "Ann", "dev", 5, "active", 0, "garbage"⟩ ∈
       get_employees c9db "A" ∧
     (rowToEmployee ⟨"e1", "A", "Ann", "dev", 5, "active", 0, "garbage"⟩).created_at =
       epochTimestamp) ∧
    (parseRfc3339 "2024-13-99T99:99:99+00:00" = none) ∧
    (get_client_by_username c9db "user1" =
       some (rowToClient ⟨"cid1", "Biz", "", "", "", "", "e@x", "", "user1", "pw1",
         "not-a-date"⟩) ∧
     (rowToClient ⟨"cid1", "Biz", "", "", "", "", "e@x", "", "user1", "pw1",
       "not-a-date"⟩).created_at = epochTimestamp) := by
  have h := C9_malformed_timestamp_fallback c9db
  refine ⟨⟨by decide, ?_, ?_⟩, by decide, ?_⟩
  · exact (h.1 "A" ⟨"e1", "A", "Ann", "dev", 5, "active", 0, "garbage"⟩ (by decide)
      (by decide) (by decide)).1
  · exact (h.1 "A" ⟨"e1", "A", "Ann", "dev", 5, "active", 0, "garbage"⟩ (by decide)
      (by decide) (by decide)).2
  · exact h.2.2.2 "user1" ⟨"cid1", "Biz", "", "", "", "", "e@x", "", "user1", "pw1",
      "not-a-date"⟩ (by decide) (by decide) (by decide) (by decide)

/-! ## C10: omitted optional event fields become empty strings -/

/-- C10: when the optional `description` / `start_time` / `end_time` of an
event-creation request is absent, the constructed Event carries `""` for that
field; an omitted optional field is indistinguishable from one supplied as
`some ""`; and the created event, listed afterwards for the owning tenant,
still carries the empty strings. -/
theorem C10_optional_event_fields :
    (∀ (id : String) (now : Timestamp) (cid : String) (r : CreateEventRequest),
       r.description = none → (eventOfRequest id now cid r).description = "") ∧
    (∀ (id : String) (now : Timestamp) (cid : String) (r : CreateEventRequest),
       r.start_time = none → (eventOfRequest id now cid r).start_time = "") ∧
    (∀ (id : String) (now : Timestamp) (cid : String) (r : CreateEventRequest),
       r.end_time = none → (eventOfRequest id now cid r).end_time = "") ∧
    (∀ (id : String) (now : Timestamp) (cid : String) (r : CreateEventRequest),
       eventOfRequest id now cid { r with description := none } =
         eventOfRequest id now cid { r with description := some "" } ∧
       eventOfRequest id now cid { r with start_time := none } =
         eventOfRequest id now cid { r with start_time := some "" } ∧
       eventOfRequest id now cid { r with end_time := none } =
         eventOfRequest id now cid { r with end_time := some "" }) ∧
    (∀ (db db' : Db) (id : String) (now : Timestamp) (cid : String)
       (r : CreateEventRequest), now.Valid →
       r.description = none → r.start_time = none → r.end_time = none →
       create_event db (eventOfRequest id now cid r) = .ok db' →
       ∃ e ∈ get_events db' cid, e.id = id ∧ e.description = "" ∧
         e.start_time = "" ∧ e.end_time = "") := by
  refine ⟨?_, ?_, ?_, ?_, ?_⟩
  · intro id now cid r h; simp [eventOfRequest, h]
  · intro id now cid r h; simp [eventOfRequest, h]
  · intro id now cid r h; simp [eventOfRequest, h]
  · intro id now cid r; exact ⟨rfl, rfl, rfl⟩
  · intro db db' id now cid r hval hdesc hst hend hok
    obtain rfl := create_event_ok _ _ _ hok
    refine ⟨eventOfRequest id now cid r, ?_, rfl, by simp [eventOfRequest, hdesc],
      by simp [eventOfRequest, hst], by simp [eventOfRequest, hend]⟩
    have hrt : rowToEvent (eventToRow (eventOfRequest id now cid r)) =
        eventOfRequest id now cid r :=
      rowToEvent_eventToRow _ hval
    have hmem := List.mem_map_of_mem rowToEvent (l := List.insertionSort eventOrder
      (List.filter (fun x => x.client_id == cid)
        (db.events ++ [eventToRow (eventOfRequest id now cid r)])))
      (by
        rw [List.mem_insertionSort, List.mem_filter]
        exact ⟨List.mem_append_right _ (List.mem_singleton_self _),
               by simp [eventToRow, eventOfRequest]⟩)
    rw [hrt] at hmem
    exact hmem

/-- Request with all optional fields omitted, for the C10 witness. -/
def c10req : CreateEventRequest :=
  ⟨"demo", none, "2024-04-01", none, "2024-04-01", none, "green"⟩

/-- Witness for C10: the concrete created-and-listed event carries `""` in
all three optional slots. -/
theorem C10_optional_event_fields_witness :
    (⟨2024, 3, 5, 10, 20, 30, 0⟩ : Timestamp).Valid ∧
    c10req.description = none ∧ c10req.start_time = none ∧ c10req.end_time = none ∧
    create_event Db.empty (eventOfRequest "v9" ⟨2024, 3, 5, 10, 20, 30, 0⟩ "A" c10req) =
      .ok ⟨[], [], [], [eventToRow (eventOfRequest "v9" ⟨2024, 3, 5, 10, 20, 30, 0⟩
        "A" c10req)]⟩ ∧
    ∃ e ∈ get_events ⟨[], [], [], [eventToRow (eventOfRequest "v9"
        ⟨2024, 3, 5, 10, 20, 30, 0⟩ "A" c10req)]⟩ "A",
      e.id = "v9" ∧ e.description = "" ∧ e.start_time = "" ∧ e.end_time = "" :=
  ⟨by decide, rfl, rfl, rfl, rfl,
   C10_optional_event_fields.2.2.2.2 Db.empty
     ⟨[], [], [], [eventToRow (eventOfRequest "v9" ⟨2024, 3, 5, 10, 20, 30, 0⟩ "A"
       c10req)]⟩
     "v9" ⟨2024, 3, 5, 10, 20, 30, 0⟩ "A" c10req (by decide) rfl rfl rfl rfl⟩
